import Mathlib

/-!
Verification of the `FIS` wrapper class (src/FIS.py) around the fuzzylite
engine: membership-function synthesis, variable construction, engine
assembly, rule installation and the inference session.

Shallow embedding conventions:
* Python floats are modelled as exact rationals (`ℚ`); all the synthesis
  arithmetic (`+`, `-`, `*`, `/`) is embedded literally.
* fuzzylite objects that this code merely stores (T-norms, S-norms,
  activation, defuzzifier) are modelled as opaque `String` tags.
* `None`-sentinel optional parameters become `Option`; a Python method
  that can raise becomes a function into `Except FISError _` (paired with
  the post-call object state where the source mutates `self` before
  raising).
* fuzzylite initialises a fresh variable's numeric value slot to NaN; no
  claim reads a value before it is bound, so the slot defaults to `0`.
-/

/-- A fuzzylite membership-function term as constructed by `FIS.py`:
`fl.Triangle(label, a, b, c)`, `fl.Trapezoid(label, a, b, c, d)` or
`fl.Gaussian(label, mean, std_dev)`. -/
inductive Term where
  | triangle (label : String) (a b c : ℚ)
  | trapezoid (label : String) (a b c d : ℚ)
  | gaussian (label : String) (mean std_dev : ℚ)
deriving DecidableEq, Repr

/-- Embedding of `FIS._create_triangular_mf`: one triangle per label,
first label anchored flat at `minimum`, last at `maximum`, interior
labels with feet `minimum + step*(i ∓ overlap)` and peak at the
midpoint of the feet. -/
def _create_triangular_mf (labels : List String) (minimum maximum overlap : ℚ) :
    List Term :=
  let n := labels.length
  let range_size := maximum - minimum
  let step := range_size / n
  labels.enum.map fun p =>
    let i := p.1
    let label := p.2
    if i = 0 then
      Term.triangle label minimum minimum (minimum + step * (1 + overlap))
    else if i = n - 1 then
      Term.triangle label (minimum + step * ((i : ℚ) - overlap)) maximum maximum
    else
      let a := minimum + step * ((i : ℚ) + 0 - overlap)
      let c := minimum + step * ((i : ℚ) + 1 + overlap)
      let b := (1/2 : ℚ) * (c + a)
      Term.triangle label a b c

/-- Embedding of `FIS._create_trapezoid_mf`: first label `(min, min,
min + ratio*(d-a), d)`; last label `(a, (a+d)*ratio, max, max)`;
interior labels symmetric shoulders `mid ∓ half_top` around the
midpoint of the feet. -/
def _create_trapezoid_mf (labels : List String) (minimum maximum ratio overlap : ℚ) :
    List Term :=
  let n := labels.length
  let range_size := maximum - minimum
  let step := range_size / n
  labels.enum.map fun p =>
    let i := p.1
    let label := p.2
    if i = 0 then
      let a := minimum
      let b := minimum
      let d := minimum + step * (1 + overlap)
      let half_top := ratio * (d - a)
      let c := minimum + half_top
      Term.trapezoid label a b c d
    else if i = n - 1 then
      let a := minimum + step * ((i : ℚ) - overlap)
      let c := maximum
      let d := maximum
      let b := (a + d) * ratio
      Term.trapezoid label a b c d
    else
      let a := minimum + step * ((i : ℚ) + 0 - overlap)
      let d := minimum + step * ((i : ℚ) + 1 + overlap)
      let mid := (d + a) * (1/2 : ℚ)
      let half_top := ratio * (d - a) * (1/2 : ℚ)
      let b := mid - half_top
      let c := mid + half_top
      Term.trapezoid label a b c d

/-- Embedding of `FIS._create_gaussian_mf`: mean at the triangular
envelope's peak, `std_dev = (mean - governing foot) / 3` with the
subtraction order exactly as in the source. -/
def _create_gaussian_mf (labels : List String) (minimum maximum overlap : ℚ) :
    List Term :=
  let n := labels.length
  let range_size := maximum - minimum
  let step := range_size / n
  labels.enum.map fun p =>
    let i := p.1
    let label := p.2
    if i = 0 then
      let c := minimum + step * (1 + overlap)
      let mean := minimum
      let std_dev := (mean - c) / 3
      Term.gaussian label mean std_dev
    else if i = n - 1 then
      let a := minimum + step * ((i : ℚ) - overlap)
      let mean := maximum
      let std_dev := (mean - a) / 3
      Term.gaussian label mean std_dev
    else
      let a := minimum + step * ((i : ℚ) + 0 - overlap)
      let c := minimum + step * ((i : ℚ) + 1 + overlap)
      let b := (1/2 : ℚ) * (c + a)
      let mean := b
      let std_dev := (mean - c) / 3
      Term.gaussian label mean std_dev

/-- An `fl.Rule` object as produced by `fl.Rule.create`; its internals
belong to the external engine, so it is opaque here (identified by the
text it was compiled from). -/
structure Rule where
  text : String
deriving DecidableEq, Repr

/-- Error kinds raised by the embedded methods.  The Python source raises
`ValueError` for the first two; `attributeError` and `indexError` stand
for the runtime errors Python raises on `None.rules` and out-of-range
indexing; `ruleCompilationError` is propagated from the external
engine's `fl.Rule.create`. -/
inductive FISError where
  | missingTermSpecification
  | duplicateVariableName
  | ruleCompilationError (rule : String)
  | attributeError
  | indexError
deriving DecidableEq, Repr

/-- An `fl.InputVariable` with the fields `create_input_variable`
passes to its constructor, plus the engine's current-value slot. -/
structure InputVariable where
  name : String
  description : String
  enabled : Bool
  minimum : ℚ
  maximum : ℚ
  lock_range : Bool
  terms : List Term
  value : ℚ := 0
deriving DecidableEq, Repr

/-- An `fl.OutputVariable` with the fields `create_output_variable`
passes to its constructor (aggregation and defuzzifier are opaque
tags), plus the engine's current-value slot. -/
structure OutputVariable where
  name : String
  description : String
  enabled : Bool
  minimum : ℚ
  maximum : ℚ
  lock_range : Bool
  aggregation : String
  defuzzifier : String
  terms : List Term
  value : ℚ := 0
deriving DecidableEq, Repr

/-- An `fl.RuleBlock` with the fields `create_rule_block` passes to its
constructor; the four operator objects are opaque tags.  fuzzylite
turns a `rules=None` argument into an empty rule list. -/
structure RuleBlock where
  name : String
  description : String
  enabled : Bool
  conjunction : String
  disjunction : String
  implication : String
  activation : String
  rules : List Rule
deriving DecidableEq, Repr

/-- The `fl.Engine` state the `FIS` class manipulates: ordered input and
output variable lists and the rule-block list.  Python may append the
`None` held in `self.rule_block`, hence `Option`. -/
structure Engine where
  name : String
  description : String
  input_variables : List InputVariable
  output_variables : List OutputVariable
  rule_blocks : List (Option RuleBlock)
deriving DecidableEq, Repr

/-- The `FIS` wrapper object: the engine, the staged rule block and the
last inference output (`self.output`, initialised to `0.0`).

A note on aliasing: in Python, `add_rule_block` appends the very object
referenced by `self.rule_block`, so later in-place mutation of
`self.rule_block.rules` is visible through `engine.rule_blocks` too.
The claims below only ever read `rule_block` (for rule contents) or the
length of `rule_blocks`, so the embedding keeps the two fields as
independent values. -/
structure FIS where
  engine : Engine
  rule_block : Option RuleBlock := none
  output : ℚ := 0
deriving DecidableEq, Repr

/-- `FIS.__init__`: fresh engine, no rule block, `output = 0.0`. -/
def FIS.init (name : String) (description : String) : FIS :=
  { engine :=
      { name := name
        description := description
        input_variables := []
        output_variables := []
        rule_blocks := [] }
    rule_block := none
    output := 0 }

/-- `FIS.create_rule_block`: overwrite the staged rule block (the engine
is untouched).  The source's defaults are `fl.Minimum()`,
`fl.Maximum()`, `fl.AlgebraicProduct()`, `fl.General()`, `rules=None`. -/
def FIS.create_rule_block (fis : FIS) (rule_name : String)
    (rule_description : String) (enabled : Bool)
    (rule_conjunction rule_disjunction rule_implication rule_activation : String)
    (rules : Option (List Rule)) : FIS :=
  { fis with
    rule_block := some
      { name := rule_name
        description := rule_description
        enabled := enabled
        conjunction := rule_conjunction
        disjunction := rule_disjunction
        implication := rule_implication
        activation := rule_activation
        rules := rules.getD [] } }

/-- `FIS.add_rule_block`: unconditionally append `self.rule_block` to
`engine.rule_blocks`. -/
def FIS.add_rule_block (fis : FIS) : FIS :=
  { fis with
    engine :=
      { fis.engine with
        rule_blocks := fis.engine.rule_blocks ++ [fis.rule_block] } }

/-- `FIS._is_valid_variable_name`: scan the already-registered
variables' names and report `False` on the first collision.  (The
source iterates variable objects and reads `.name`; callers here pass
the projected name list.) -/
def _is_valid_variable_name (variable_name : String) :
    (set_variable_name : List String) → Bool
  | [] => true
  | name :: rest =>
      if name = variable_name then false
      else _is_valid_variable_name variable_name rest

/-- `FIS.add_input_variable`: raise unless the name is absent from the
input-variable set, else append. -/
def FIS.add_input_variable (fis : FIS) (var : InputVariable) :
    Except FISError FIS :=
  if ! _is_valid_variable_name var.name
      (fis.engine.input_variables.map (·.name)) then
    .error .duplicateVariableName
  else
    .ok { fis with
          engine :=
            { fis.engine with
              input_variables := fis.engine.input_variables ++ [var] } }

/-- `FIS.add_output_variable`: raise unless the name is absent from the
output-variable set, else append. -/
def FIS.add_output_variable (fis : FIS) (var : OutputVariable) :
    Except FISError FIS :=
  if ! _is_valid_variable_name var.name
      (fis.engine.output_variables.map (·.name)) then
    .error .duplicateVariableName
  else
    .ok { fis with
          engine :=
            { fis.engine with
              output_variables := fis.engine.output_variables ++ [var] } }

/-- `FIS.create_input_variable`.  The source is a chain of `if`s on the
`None`-sentinels: error when both `auto_mf_type` and `terms` are unset,
explicit terms only when `auto_mf_type` is unset, then one branch per
recognised shape kind; an unrecognised kind falls off the end of the
Python function, returning `None` (modelled as `.ok none`).  The
function reads no `self` state, so it is embedded without the `FIS`
argument. -/
def create_input_variable (variable_name variable_description : String)
    (enable : Bool) (variable_minimum variable_maximum : ℚ) (ratio : ℚ)
    (lock_range : Bool) (variable_labels : List String)
    (auto_mf_type : Option String) (terms : Option (List Term))
    (overlap : ℚ) : Except FISError (Option InputVariable) :=
  match auto_mf_type, terms with
  | none, none => .error .missingTermSpecification
  | none, some ts =>
      .ok (some
        { name := variable_name
          description := variable_description
          enabled := enable
          minimum := variable_minimum
          maximum := variable_maximum
          lock_range := lock_range
          terms := ts })
  | some kind, _ =>
      if kind = "triangular" then
        .ok (some
          { name := variable_name
            description := variable_description
            enabled := enable
            minimum := variable_minimum
            maximum := variable_maximum
            lock_range := lock_range
            terms := _create_triangular_mf variable_labels
              variable_minimum variable_maximum overlap })
      else if kind = "gaussian" then
        .ok (some
          { name := variable_name
            description := variable_description
            enabled := enable
            minimum := variable_minimum
            maximum := variable_maximum
            lock_range := lock_range
            terms := _create_gaussian_mf variable_labels
              variable_minimum variable_maximum overlap })
      else if kind = "trapezoid" then
        .ok (some
          { name := variable_name
            description := variable_description
            enabled := enable
            minimum := variable_minimum
            maximum := variable_maximum
            lock_range := lock_range
            terms := _create_trapezoid_mf variable_labels
              variable_minimum variable_maximum ratio overlap })
      else
        .ok none

/-- `FIS.create_output_variable`: same branch structure as
`create_input_variable`, with the aggregation/defuzzifier
configuration threaded through (defaults `fl.Maximum()`,
`fl.Centroid(50)`). -/
def create_output_variable (variable_name variable_description : String)
    (enable : Bool) (variable_minimum variable_maximum : ℚ) (ratio : ℚ)
    (lock_range : Bool) (aggregation defuzzifier : String)
    (variable_labels : List String)
    (auto_mf_type : Option String) (terms : Option (List Term))
    (overlap : ℚ) : Except FISError (Option OutputVariable) :=
  match auto_mf_type, terms with
  | none, none => .error .missingTermSpecification
  | none, some ts =>
      .ok (some
        { name := variable_name
          description := variable_description
          enabled := enable
          minimum := variable_minimum
          maximum := variable_maximum
          lock_range := lock_range
          aggregation := aggregation
          defuzzifier := defuzzifier
          terms := ts })
  | some kind, _ =>
      if kind = "triangular" then
        .ok (some
          { name := variable_name
            description := variable_description
            enabled := enable
            minimum := variable_minimum
            maximum := variable_maximum
            lock_range := lock_range
            aggregation := aggregation
            defuzzifier := defuzzifier
            terms := _create_triangular_mf variable_labels
              variable_minimum variable_maximum overlap })
      else if kind = "gaussian" then
        .ok (some
          { name := variable_name
            description := variable_description
            enabled := enable
            minimum := variable_minimum
            maximum := variable_maximum
            lock_range := lock_range
            aggregation := aggregation
            defuzzifier := defuzzifier
            terms := _create_gaussian_mf variable_labels
              variable_minimum variable_maximum overlap })
      else if kind = "trapezoid" then
        .ok (some
          { name := variable_name
            description := variable_description
            enabled := enable
            minimum := variable_minimum
            maximum := variable_maximum
            lock_range := lock_range
            aggregation := aggregation
            defuzzifier := defuzzifier
            terms := _create_trapezoid_mf variable_labels
              variable_minimum variable_maximum ratio overlap })
      else
        .ok none

/-- The loop body of `add_rules_from_list`: compile each string with the
external engine's `fl.Rule.create` (the parameter `create`), appending
each compiled rule to the block's (already cleared) rule list.  A
compilation failure propagates at once, leaving the rules appended so
far — exactly the in-place Python mutation. -/
def compile_rule_loop (create : String → Engine → Except FISError Rule)
    (engine : Engine) (acc : List Rule) :
    List String → Except FISError Unit × List Rule
  | [] => (.ok (), acc)
  | r :: rest =>
      match create r engine with
      | .error e => (.error e, acc)
      | .ok c => compile_rule_loop create engine (acc ++ [c]) rest

/-- `FIS.add_rules_from_list`: clear `self.rule_block.rules` in place,
then compile and append each rule string in order.  The result pairs
the raised error (if any) with the post-call object state; on
`self.rule_block = None` Python raises `AttributeError` at the
clearing assignment. -/
def FIS.add_rules_from_list (create : String → Engine → Except FISError Rule)
    (fis : FIS) (rule_list : List String) : Except FISError Unit × FIS :=
  match fis.rule_block with
  | none => (.error .attributeError, fis)
  | some rb =>
      let res := compile_rule_loop create fis.engine [] rule_list
      (res.1, { fis with rule_block := some { rb with rules := res.2 } })

/-- `FIS.get_input_variable_names`: the registered input names in
insertion order. -/
def FIS.get_input_variable_names (fis : FIS) : List String :=
  fis.engine.input_variables.map (·.name)

/-- `FIS.get_output_variable_names`: the registered output names in
insertion order. -/
def FIS.get_output_variable_names (fis : FIS) : List String :=
  fis.engine.output_variables.map (·.name)

/-- Set the value slot of the first input variable bearing `name`
(fuzzylite's `engine.input_variable(name)` resolves a name to the first
variable carrying it). -/
def set_first_input_value : List InputVariable → String → ℚ → List InputVariable
  | [], _, _ => []
  | iv :: rest, name, v =>
      if iv.name = name then { iv with value := v } :: rest
      else iv :: set_first_input_value rest name v

/-- `engine.input_variable(name).value = v`. -/
def Engine.set_input_value (engine : Engine) (name : String) (v : ℚ) : Engine :=
  { engine with
    input_variables := set_first_input_value engine.input_variables name v }

/-- The binding loop of `inference`: `for i in range(len(inputs)):
engine.input_variable(inputs_name[i]).value = inputs[i]`.  When
`inputs` outruns the name list, `inputs_name[i]` raises `IndexError` —
after the earlier bindings already mutated the engine. -/
def bind_inputs (engine : Engine) :
    List String → List ℚ → Except FISError Unit × Engine
  | _, [] => (.ok (), engine)
  | [], _ :: _ => (.error .indexError, engine)
  | name :: rest, v :: vs =>
      bind_inputs (engine.set_input_value name v) rest vs

/-- `FIS.inference`: bind the inputs positionally, run the external
engine's `process` (a parameter here), then store the value of the
first registered output variable into `self.output`.  With no output
variables, `output_name[0]` raises `IndexError`.  The method itself
returns `None`; the pair's first component is only the raised-or-ok
status. -/
def FIS.inference (process : Engine → Engine) (fis : FIS)
    (inputs : List ℚ) : Except FISError Unit × FIS :=
  let inputs_name := fis.get_input_variable_names
  match bind_inputs fis.engine inputs_name inputs with
  | (.error e, eng) => (.error e, { fis with engine := eng })
  | (.ok _, eng) =>
      let eng2 := process eng
      match eng2.output_variables with
      | [] => (.error .indexError, { fis with engine := eng2 })
      | ov :: _ =>
          (.ok (), { fis with engine := eng2, output := ov.value })

/-- One call in a `create_rule_block` / `add_rule_block` call sequence
(for the reachable-states claim about `engine.rule_blocks`). -/
inductive RBOp where
  | create (rule_name rule_description : String) (enabled : Bool)
      (conj disj impl act : String) (rules : Option (List Rule))
  | add
deriving DecidableEq, Repr

/-- Apply one rule-block call to the `FIS` object. -/
def applyRBOp (fis : FIS) : RBOp → FIS
  | .create n d e cj dj im ac rs => fis.create_rule_block n d e cj dj im ac rs
  | .add => fis.add_rule_block

/-- Run a sequence of rule-block calls left to right. -/
def runRBOps (fis : FIS) (ops : List RBOp) : FIS :=
  ops.foldl applyRBOp fis

/-- Whether a rule-block call is an `add_rule_block` call. -/
def RBOp.isAdd : RBOp → Bool
  | .add => true
  | _ => false

/-- The `i`-th synthesized term (a harmless default keeps statements
free of dependent bounds; every theorem below restricts `i` to the
label range). -/
def nthTerm (ts : List Term) (i : ℕ) : Term :=
  ts.getD i (Term.triangle "" 0 0 0)

/-- Non-decreasing parameter tuple of a triangular term. -/
def triangleMono : Term → Prop
  | .triangle _ a b c => a ≤ b ∧ b ≤ c
  | _ => True

/-- Non-decreasing parameter tuple of a trapezoid term. -/
def trapezoidMono : Term → Prop
  | .trapezoid _ a b c d => a ≤ b ∧ b ≤ c ∧ c ≤ d
  | _ => True

/-- Left foot of a triangular term. -/
def triangleFootLeft : Term → ℚ
  | .triangle _ a _ _ => a
  | _ => 0

/-- Peak of a triangular term. -/
def trianglePeak : Term → ℚ
  | .triangle _ _ b _ => b
  | _ => 0

/-- Right foot of a triangular term. -/
def triangleFootRight : Term → ℚ
  | .triangle _ _ _ c => c
  | _ => 0

/-- Mean of a Gaussian term. -/
def gaussianMean : Term → ℚ
  | .gaussian _ m _ => m
  | _ => 0

/-- Standard deviation of a Gaussian term. -/
def gaussianStd : Term → ℚ
  | .gaussian _ _ s => s
  | _ => 0

/-- The rules obtained by compiling a list of rule strings, keeping the
successes (used to describe the state `add_rules_from_list` leaves
behind when a later rule fails). -/
def compiled_rules (create : String → Engine → Except FISError Rule)
    (engine : Engine) (rs : List String) : List Rule :=
  rs.filterMap fun r => (create r engine).toOption

/-- A rule compiler standing in for `fl.Rule.create`: fails exactly on
the string `"bad"` (concrete instantiation for tests/witnesses). -/
def demo_create : String → Engine → Except FISError Rule :=
  fun s _ => if s = "bad" then .error (.ruleCompilationError s) else .ok ⟨s⟩

/-- A minimal input variable (concrete instantiation). -/
def demo_input (nm : String) : InputVariable :=
  { name := nm
    description := ""
    enabled := true
    minimum := 0
    maximum := 1
    lock_range := false
    terms := []
    value := 0 }

/-- A minimal output variable whose current value slot holds `7`
(concrete instantiation). -/
def demo_output (nm : String) : OutputVariable :=
  { name := nm
    description := ""
    enabled := true
    minimum := 0
    maximum := 1
    lock_range := false
    aggregation := "Maximum"
    defuzzifier := "Centroid"
    terms := []
    value := 7 }

/-- A staged rule block holding one old rule (concrete instantiation). -/
def demo_rule_block : RuleBlock :=
  { name := "rb"
    description := ""
    enabled := true
    conjunction := "Minimum"
    disjunction := "Maximum"
    implication := "AlgebraicProduct"
    activation := "General"
    rules := [⟨"old"⟩] }

/-- A `FIS` whose rule block already holds one rule (concrete
instantiation). -/
def demo_fis_staged : FIS :=
  { engine := (FIS.init "f" "d").engine
    rule_block := some demo_rule_block
    output := 0 }

/-- A `FIS` with two input variables and one output variable (concrete
instantiation). -/
def demo_fis2 : FIS :=
  { engine :=
      { name := "f"
        description := "d"
        input_variables := [demo_input "x", demo_input "y"]
        output_variables := [demo_output "o"]
        rule_blocks := [] }
    rule_block := none
    output := 0 }

/-! ## General lemmas about the embedded operations -/

theorem nthTerm_enum_map (f : ℕ × String → Term) (labels : List String)
    (i : ℕ) (hi : i < labels.length) :
    nthTerm (labels.enum.map f) i = f (i, labels.get ⟨i, hi⟩) := by
  have h1 : i < (labels.enum.map f).length := by simpa using hi
  rw [nthTerm, List.getD_eq_getElem?_getD, List.getElem?_eq_getElem h1,
    Option.getD_some]
  simp [List.getElem_map, List.getElem_enum]

theorem _is_valid_variable_name_iff (x : String) (l : List String) :
    _is_valid_variable_name x l = true ↔ x ∉ l := by
  induction l with
  | nil => simp [_is_valid_variable_name]
  | cons a rest ih =>
      by_cases h : a = x
      · simp [_is_valid_variable_name, h]
      · simp [_is_valid_variable_name, h, ih, Ne.symm h]

/-! ## Claim theorems -/

/-- C3: the triangular synthesizer on labels `["low","average","high"]`,
universe `[0,1]`, overlap `0` produces exactly
`low=(0,0,1/3)`, `average=(1/3,1/2,2/3)`, `high=(2/3,1,1)` — the right
foot of each term equals the left foot of the next, and the interior
peak is the midpoint of its feet. -/
theorem triangular_partition_unit_three_labels :
    _create_triangular_mf ["low", "average", "high"] 0 1 0 =
      [Term.triangle "low" 0 0 (1/3),
       Term.triangle "average" (1/3) (1/2) (2/3),
       Term.triangle "high" (2/3) 1 1] := by
  norm_num [_create_triangular_mf, List.enum, List.enumFrom]

/-- C1 counterexample: calling `create_input_variable` with BOTH a shape
kind (`"triangular"`) and explicit terms returns the synthesized
triangular terms, not the supplied terms — the claimed precedence of
explicit `terms` is false. -/
theorem create_input_both_set_prefers_shape_cex :
    create_input_variable "v" "" true 0 1 (1/2) false ["only"]
        (some "triangular") (some [Term.triangle "x" 0 0 0]) 0 =
      .ok (some
        { name := "v", description := "", enabled := true, minimum := 0,
          maximum := 1, lock_range := false,
          terms := [Term.triangle "only" 0 0 1], value := 0 }) ∧
    [Term.triangle "only" 0 0 1] ≠ [Term.triangle "x" 0 0 0] := by
  constructor
  · norm_num [create_input_variable, _create_triangular_mf, List.enum,
      List.enumFrom]
  · simp

/-- C1 (amended): when both a shape kind and explicit terms are
supplied, the shape kind takes precedence: the explicit `terms`
argument is ignored entirely (the call is equivalent for any two terms
arguments), and for `"triangular"` the returned variable carries the
synthesized terms.  Likewise for `create_output_variable`. -/
theorem create_variable_shape_overrides_terms
    (vn vd : String) (en : Bool) (mn mx r : ℚ) (lr : Bool)
    (agg df : String) (labels : List String) (kind : String)
    (ts ts' : Option (List Term)) (ov : ℚ) :
    create_input_variable vn vd en mn mx r lr labels (some kind) ts ov =
      create_input_variable vn vd en mn mx r lr labels (some kind) ts' ov ∧
    create_output_variable vn vd en mn mx r lr agg df labels
        (some kind) ts ov =
      create_output_variable vn vd en mn mx r lr agg df labels
        (some kind) ts' ov ∧
    create_input_variable vn vd en mn mx r lr labels
        (some "triangular") ts ov =
      .ok (some
        { name := vn, description := vd, enabled := en, minimum := mn,
          maximum := mx, lock_range := lr,
          terms := _create_triangular_mf labels mn mx ov, value := 0 }) := by
  refine ⟨?_, ?_, ?_⟩ <;> cases ts <;> cases ts' <;> rfl

/-- C8 counterexample: an unsupported shape kind (`"sigmoid"`) raises no
error at all — both builders complete, returning no variable
(Python's implicit `None`). -/
theorem create_variable_unsupported_kind_cex :
    create_input_variable "v" "" true 0 1 (1/2) false ["low"]
        (some "sigmoid") none 0 = .ok none ∧
    create_output_variable "v" "" true 0 1 (1/2) false "Maximum" "Centroid"
        ["low"] (some "sigmoid") none 0 = .ok none := by
  constructor <;> rfl

/-- C8 (amended): for a shape kind other than `triangular`, `gaussian`
and `trapezoid`, the builders raise nothing and fall off the end of
the function, completing with no variable (`None`). -/
theorem create_variable_unsupported_kind_returns_none
    (vn vd : String) (en : Bool) (mn mx r : ℚ) (lr : Bool)
    (agg df : String) (labels : List String) (kind : String)
    (ts : Option (List Term)) (ov : ℚ)
    (h1 : kind ≠ "triangular") (h2 : kind ≠ "gaussian")
    (h3 : kind ≠ "trapezoid") :
    create_input_variable vn vd en mn mx r lr labels (some kind) ts ov =
      .ok none ∧
    create_output_variable vn vd en mn mx r lr agg df labels
        (some kind) ts ov = .ok none := by
  constructor <;> cases ts <;>
    simp [create_input_variable, create_output_variable, h1, h2, h3]

/-- C8 witness: the amended theorem applied at the concrete kind
`"bogus"`. -/
theorem create_variable_unsupported_kind_returns_none_witness :
    create_input_variable "v" "" true 0 1 (1/2) false ["low"]
        (some "bogus") none 0 = .ok none ∧
    create_output_variable "v" "" true 0 1 (1/2) false "Maximum" "Centroid"
        ["low"] (some "bogus") none 0 = .ok none :=
  create_variable_unsupported_kind_returns_none "v" "" true 0 1 (1/2) false
    "Maximum" "Centroid" ["low"] "bogus" none 0
    (by decide) (by decide) (by decide)

/-- C9 counterexample: one `create_rule_block` call followed by two
`add_rule_block` calls leaves the engine holding two rule blocks, not
at most one. -/
theorem engine_holds_two_rule_blocks_cex :
    (runRBOps (FIS.init "f" "d")
        [RBOp.create "rb" "" true "Minimum" "Maximum" "AlgebraicProduct"
           "General" none,
         RBOp.add, RBOp.add]).engine.rule_blocks.length = 2 ∧
    ¬ (2 : ℕ) ≤ 1 := by
  constructor
  · rfl
  · decide

/-- C9 (amended): after any sequence of `create_rule_block` /
`add_rule_block` calls, the engine holds exactly one rule block per
`add_rule_block` call performed (so at most one only when at most one
`add_rule_block` call was made). -/
theorem rule_blocks_length_eq_add_count (fis : FIS) (ops : List RBOp) :
    (runRBOps fis ops).engine.rule_blocks.length =
      fis.engine.rule_blocks.length + ops.countP (fun op => op.isAdd) := by
  induction ops generalizing fis with
  | nil => simp [runRBOps]
  | cons op rest ih =>
      simp only [runRBOps, List.foldl_cons] at *
      rw [ih]
      cases op with
      | create n d e cj dj im ac rs =>
          simp [applyRBOp, FIS.create_rule_block, RBOp.isAdd,
            List.countP_cons]
      | add =>
          simp [applyRBOp, FIS.add_rule_block, RBOp.isAdd,
            List.countP_cons]
          omega

theorem compile_rule_loop_prefix_error
    (create : String → Engine → Except FISError Rule) (engine : Engine)
    (pre : List String) (post : List String) (bad : String) (e : FISError)
    (hbad : create bad engine = .error e) :
    (∀ r ∈ pre, ∃ c, create r engine = .ok c) →
    ∀ acc, compile_rule_loop create engine acc (pre ++ bad :: post) =
      (.error e, acc ++ compiled_rules create engine pre) := by
  induction pre with
  | nil =>
      intro _ acc
      simp [compile_rule_loop, hbad, compiled_rules]
  | cons r rest ih =>
      intro hpre acc
      obtain ⟨c, hc⟩ := hpre r (by simp)
      have hrest : ∀ x ∈ rest, ∃ cx, create x engine = .ok cx :=
        fun x hx => hpre x (by simp [hx])
      simp only [List.cons_append, compile_rule_loop, hc]
      rw [List.append_eq, ih hrest (acc ++ [c])]
      simp [compiled_rules, hc, List.filterMap_cons, Except.toOption]

/-- C4 counterexample: with a staged rule block holding one old rule,
a batch `["good", "bad", "never"]` whose second rule fails to compile
leaves the rule block holding exactly `[good]` — the old rule is gone
and the batch is truncated, a partial old/new state. -/
theorem add_rules_partial_state_cex :
    (demo_fis_staged.add_rules_from_list demo_create
        ["good", "bad", "never"]).1 =
      .error (.ruleCompilationError "bad") ∧
    (demo_fis_staged.add_rules_from_list demo_create
        ["good", "bad", "never"]).2.rule_block =
      some { demo_rule_block with rules := [⟨"good"⟩] } ∧
    ([⟨"good"⟩] : List Rule) ≠ [⟨"old"⟩] ∧
    ([⟨"good"⟩] : List Rule) ≠ [⟨"good"⟩, ⟨"bad"⟩, ⟨"never"⟩] := by
  refine ⟨rfl, rfl, by simp, by simp⟩

/-- C4 (amended): a compilation failure does surface immediately (the
rules after the failing one are never compiled), but the batch is not
atomic: the old rule list is cleared and the successfully compiled
prefix stays installed, so the visible rule list after the failure is
the truncated new prefix. -/
theorem add_rules_failure_leaves_compiled_prefix
    (create : String → Engine → Except FISError Rule) (fis : FIS)
    (rb : RuleBlock) (pre post : List String) (bad : String) (e : FISError)
    (hrb : fis.rule_block = some rb)
    (hbad : create bad fis.engine = .error e)
    (hpre : ∀ r ∈ pre, ∃ c, create r fis.engine = .ok c) :
    fis.add_rules_from_list create (pre ++ bad :: post) =
      (.error e,
       { fis with
         rule_block := some
           { rb with rules := compiled_rules create fis.engine pre } }) := by
  simp only [FIS.add_rules_from_list, hrb]
  rw [compile_rule_loop_prefix_error create fis.engine pre post bad e hbad
    hpre []]
  simp

/-- C4 witness: the amended theorem at a concrete batch whose second
rule fails. -/
theorem add_rules_failure_witness :
    demo_fis_staged.add_rules_from_list demo_create
        ["good", "bad", "never"] =
      (.error (.ruleCompilationError "bad"),
       { demo_fis_staged with
         rule_block := some
           { demo_rule_block with
             rules := compiled_rules demo_create demo_fis_staged.engine
               ["good"] } }) :=
  add_rules_failure_leaves_compiled_prefix demo_create demo_fis_staged
    demo_rule_block ["good"] ["never"] "bad" (.ruleCompilationError "bad")
    rfl rfl
    (by
      intro r hr
      simp only [List.mem_singleton] at hr
      subst hr
      exact ⟨⟨"good"⟩, rfl⟩)

/-- C7: `add_input_variable` raises `DuplicateVariableName` exactly when
the new variable's name is already registered among the input
variables (and then inserts nothing, the engine being handed back
unchanged to the caller); otherwise it appends the variable.  The same
holds for `add_output_variable` against the output set only, so one
name may live once in each set without conflict. -/
theorem add_variable_duplicate_name_iff (fis : FIS) (v : InputVariable)
    (w : OutputVariable) :
    (fis.add_input_variable v = .error .duplicateVariableName ↔
      v.name ∈ fis.get_input_variable_names) ∧
    (v.name ∉ fis.get_input_variable_names →
      fis.add_input_variable v =
        .ok { fis with
              engine := { fis.engine with
                input_variables := fis.engine.input_variables ++ [v] } }) ∧
    (fis.add_output_variable w = .error .duplicateVariableName ↔
      w.name ∈ fis.get_output_variable_names) ∧
    (w.name ∉ fis.get_output_variable_names →
      fis.add_output_variable w =
        .ok { fis with
              engine := { fis.engine with
                output_variables := fis.engine.output_variables ++ [w] } }) := by
  have hin := _is_valid_variable_name_iff v.name
    (fis.engine.input_variables.map (·.name))
  have hout := _is_valid_variable_name_iff w.name
    (fis.engine.output_variables.map (·.name))
  refine ⟨?_, ?_, ?_, ?_⟩
  · by_cases h : v.name ∈ fis.get_input_variable_names
    · have hv : _is_valid_variable_name v.name
          (fis.engine.input_variables.map (·.name)) = false := by
        rw [← Bool.not_eq_true, hin]
        simpa [FIS.get_input_variable_names] using h
      simp [FIS.add_input_variable, hv, h]
    · have hv : _is_valid_variable_name v.name
          (fis.engine.input_variables.map (·.name)) = true := by
        rw [hin]
        simpa [FIS.get_input_variable_names] using h
      simp [FIS.add_input_variable, hv, h]
  · intro h
    have hv : _is_valid_variable_name v.name
        (fis.engine.input_variables.map (·.name)) = true := by
      rw [hin]
      simpa [FIS.get_input_variable_names] using h
    simp [FIS.add_input_variable, hv]
  · by_cases h : w.name ∈ fis.get_output_variable_names
    · have hv : _is_valid_variable_name w.name
          (fis.engine.output_variables.map (·.name)) = false := by
        rw [← Bool.not_eq_true, hout]
        simpa [FIS.get_output_variable_names] using h
      simp [FIS.add_output_variable, hv, h]
    · have hv : _is_valid_variable_name w.name
          (fis.engine.output_variables.map (·.name)) = true := by
        rw [hout]
        simpa [FIS.get_output_variable_names] using h
      simp [FIS.add_output_variable, hv, h]
  · intro h
    have hv : _is_valid_variable_name w.name
        (fis.engine.output_variables.map (·.name)) = true := by
      rw [hout]
      simpa [FIS.get_output_variable_names] using h
    simp [FIS.add_output_variable, hv]

/-- C7 witness: adding a fresh name to an empty engine succeeds and
appends the variable. -/
theorem add_variable_duplicate_name_iff_witness :
    (FIS.init "n" "m").add_input_variable (demo_input "a") =
      .ok { FIS.init "n" "m" with
            engine := { (FIS.init "n" "m").engine with
              input_variables :=
                (FIS.init "n" "m").engine.input_variables ++
                  [demo_input "a"] } } :=
  (add_variable_duplicate_name_iff (FIS.init "n" "m") (demo_input "a")
      (demo_output "o")).2.1
    (by simp [FIS.get_input_variable_names, FIS.init])

theorem bind_inputs_fst_ok (inputs : List ℚ) :
    ∀ (names : List String) (engine : Engine),
      inputs.length ≤ names.length →
      (bind_inputs engine names inputs).1 = .ok () := by
  induction inputs with
  | nil =>
      intro names engine _
      cases names <;> rfl
  | cons v vs ih =>
      intro names engine h
      cases names with
      | nil => simp at h
      | cons nm rest =>
          simp only [bind_inputs]
          exact ih rest _ (by simpa using h)

theorem bind_inputs_fst_err (inputs : List ℚ) :
    ∀ (names : List String) (engine : Engine),
      names.length < inputs.length →
      (bind_inputs engine names inputs).1 = .error .indexError := by
  induction inputs with
  | nil =>
      intro names engine h
      simp at h
  | cons v vs ih =>
      intro names engine h
      cases names with
      | nil => rfl
      | cons nm rest =>
          simp only [bind_inputs]
          exact ih rest _ (by simpa using h)

/-- C5 counterexample: an engine with two registered input variables
accepts `inference([5])` — one value for two variables — without any
error: the call is not rejected, the first variable's value is bound
to `5`, and a full evaluation pass runs. -/
theorem inference_no_count_check_cex :
    demo_fis2.engine.input_variables.length = 2 ∧
    (demo_fis2.inference id [5]).1 = .ok () ∧
    ((demo_fis2.inference id [5]).2.engine.input_variables.map (·.value)) =
      [5, 0] := by
  refine ⟨rfl, rfl, rfl⟩

/-- C5 (amended): `inference` performs no input-count validation and
knows no `InputCountMismatch` error: with at most as many inputs as
registered input variables it binds the supplied prefix and completes
the evaluation pass normally (whenever the processed engine still has
an output variable to read); with more inputs than variables it fails
with a plain index error — only after every registered variable has
already been bound. -/
theorem inference_count_unchecked (process : Engine → Engine) (fis : FIS)
    (inputs : List ℚ) :
    (inputs.length ≤ fis.engine.input_variables.length →
      (process
          (bind_inputs fis.engine fis.get_input_variable_names
            inputs).2).output_variables ≠ [] →
      (fis.inference process inputs).1 = .ok ()) ∧
    (fis.engine.input_variables.length < inputs.length →
      (fis.inference process inputs).1 = .error .indexError) := by
  have hlen : fis.get_input_variable_names.length =
      fis.engine.input_variables.length := by
    simp [FIS.get_input_variable_names]
  constructor
  · intro hle hne
    have h1 : (bind_inputs fis.engine fis.get_input_variable_names
        inputs).1 = .ok () :=
      bind_inputs_fst_ok inputs _ _ (by rw [hlen]; exact hle)
    rcases hb : bind_inputs fis.engine fis.get_input_variable_names inputs
      with ⟨st, eng⟩
    rw [hb] at h1 hne
    have hst : st = .ok () := by simpa using h1
    subst hst
    have hne2 : (process eng).output_variables ≠ [] := by simpa using hne
    simp only [FIS.inference, hb]
    cases houts : (process eng).output_variables with
    | nil => exact absurd houts hne2
    | cons ov rest => simp [houts]
  · intro hgt
    have h1 : (bind_inputs fis.engine fis.get_input_variable_names
        inputs).1 = .error .indexError :=
      bind_inputs_fst_err inputs _ _ (by rw [hlen]; exact hgt)
    rcases hb : bind_inputs fis.engine fis.get_input_variable_names inputs
      with ⟨st, eng⟩
    rw [hb] at h1
    have hst : st = .error .indexError := by simpa using h1
    subst hst
    simp [FIS.inference, hb]

/-- C5 witness: the amended theorem at concrete calls — one input for
two variables completes, three inputs for two variables raise the
index error. -/
theorem inference_count_unchecked_witness :
    (demo_fis2.inference id [1]).1 = .ok () ∧
    (demo_fis2.inference id [1, 2, 3]).1 = .error .indexError :=
  ⟨(inference_count_unchecked id demo_fis2 [1]).1 (by decide) (by decide),
   (inference_count_unchecked id demo_fis2 [1, 2, 3]).2 (by decide)⟩

/-- C10: `inference` returns no numeric value (its success payload is
the unit value) — the crisp result of an evaluation is exposed only
through `self.output`, which is initialised to `0.0` by the
constructor and, after each successful `inference` call, holds the
post-evaluation value of the first registered output variable. -/
theorem inference_output_contract (nm ds : String)
    (process : Engine → Engine) (fis : FIS) (inputs : List ℚ) :
    (FIS.init nm ds).output = 0 ∧
    (∀ fis', fis.inference process inputs = (.ok (), fis') →
      ∃ ov rest,
        (process
            (bind_inputs fis.engine fis.get_input_variable_names
              inputs).2).output_variables = ov :: rest ∧
        fis'.output = ov.value) := by
  refine ⟨rfl, ?_⟩
  intro fis' h
  simp only [FIS.inference] at h
  rcases hb : bind_inputs fis.engine fis.get_input_variable_names inputs
    with ⟨st, eng⟩
  rw [hb] at h
  cases st with
  | error e => simp at h
  | ok u =>
      cases houts : (process eng).output_variables with
      | nil => simp [houts] at h
      | cons ov rest =>
          simp only [houts, Prod.mk.injEq] at h
          refine ⟨ov, rest, rfl, ?_⟩
          rw [← h.2]

/-- C10 witness: a fresh `FIS` exposes `output = 0`; after a successful
inference on a concrete engine the session's `output` holds the first
output variable's post-evaluation value (`7`). -/
theorem inference_output_contract_witness :
    (FIS.init "a" "b").output = 0 ∧
    ((demo_fis2.inference id [1, 2]).2).output = 7 := by
  have h := inference_output_contract "a" "b" id demo_fis2 [1, 2]
  refine ⟨h.1, ?_⟩
  obtain ⟨ov, rest, hov, hout⟩ :=
    h.2 ((demo_fis2.inference id [1, 2]).2) rfl
  have he : (id (bind_inputs demo_fis2.engine
      demo_fis2.get_input_variable_names [1, 2]).2).output_variables =
      [demo_output "o"] := rfl
  rw [he] at hov
  rw [hout, (List.cons.inj hov.symm).1]
  rfl

/-- C2 counterexample: with labels `["low","high"]`, universe `[0,1]`,
overlap `0` and the admissible ratio `0`, the trapezoid synthesizer's
last term is `(1/2, 0, 1, 1)`, whose parameters are not
non-decreasing (`a = 1/2 > b = 0`). -/
theorem trapezoid_monotonicity_cex :
    nthTerm (_create_trapezoid_mf ["low", "high"] 0 1 0 0) 1 =
      Term.trapezoid "high" (1/2) 0 1 1 ∧
    ¬ trapezoidMono (Term.trapezoid "high" (1/2) 0 1 1) := by
  constructor
  · norm_num [nthTerm, _create_trapezoid_mf, List.enum, List.enumFrom]
  · norm_num [trapezoidMono]

/-- C2 (amended): for any non-empty labels, `minimum < maximum`,
`overlap ≥ 0` and `ratio ∈ [0,1]`, every triangular term has a
non-decreasing parameter tuple `a ≤ b ≤ c`, and every trapezoid term
other than the last-label one has `a ≤ b ≤ c ≤ d`; the trapezoid
last-label term can violate the ordering (see the counterexample). -/
theorem mf_parameter_monotonicity (labels : List String) (mn mx ov r : ℚ)
    (hne : labels ≠ []) (hmm : mn < mx) (hov : 0 ≤ ov) (hr0 : 0 ≤ r)
    (hr1 : r ≤ 1) :
    (∀ i, i < labels.length →
      triangleMono (nthTerm (_create_triangular_mf labels mn mx ov) i)) ∧
    (∀ i, i < labels.length → (i = 0 ∨ i + 1 < labels.length) →
      trapezoidMono (nthTerm (_create_trapezoid_mf labels mn mx r ov) i)) := by
  have hn : 0 < labels.length := List.length_pos.mpr hne
  have hnq : (0:ℚ) < (labels.length : ℚ) := by exact_mod_cast hn
  have hstep : 0 < (mx - mn) / (labels.length : ℚ) :=
    div_pos (by linarith) hnq
  have hsn : (mx - mn) / (labels.length : ℚ) * (labels.length : ℚ) =
      mx - mn := div_mul_cancel₀ _ (ne_of_gt hnq)
  constructor
  · intro i hi
    simp only [_create_triangular_mf]
    rw [nthTerm_enum_map _ labels i hi]
    by_cases h0 : i = 0
    · subst h0
      simp only [if_pos rfl, triangleMono]
      constructor
      · exact le_refl mn
      · nlinarith [mul_nonneg hstep.le (show (0:ℚ) ≤ 1 + ov by linarith)]
    · by_cases h1 : i = labels.length - 1
      · simp only [if_neg h0, if_pos h1, triangleMono]
        have hcast : ((i : ℕ) : ℚ) = (labels.length : ℚ) - 1 := by
          rw [h1]
          rw [Nat.cast_sub hn]
          norm_num
        rw [hcast]
        constructor
        · nlinarith [mul_nonneg hstep.le (show (0:ℚ) ≤ 1 + ov by linarith)]
        · exact le_refl mx
      · simp only [if_neg h0, if_neg h1, triangleMono]
        have hac : mn + (mx - mn) / (labels.length : ℚ) *
              ((i : ℚ) + 0 - ov) ≤
            mn + (mx - mn) / (labels.length : ℚ) * ((i : ℚ) + 1 + ov) := by
          nlinarith [mul_nonneg hstep.le
            (show (0:ℚ) ≤ 1 + 2 * ov by linarith)]
        constructor
        · linarith
        · linarith
  · intro i hi hcase
    simp only [_create_trapezoid_mf]
    rw [nthTerm_enum_map _ labels i hi]
    by_cases h0 : i = 0
    · subst h0
      simp only [if_pos rfl, trapezoidMono]
      have hT : (0:ℚ) ≤ (mx - mn) / (labels.length : ℚ) * (1 + ov) :=
        mul_nonneg hstep.le (by linarith)
      refine ⟨le_refl mn, ?_, ?_⟩
      · nlinarith [mul_nonneg hr0 hT]
      · nlinarith [mul_nonneg (show (0:ℚ) ≤ 1 - r by linarith) hT]
    · have hlt : i + 1 < labels.length := hcase.resolve_left h0
      have h1 : i ≠ labels.length - 1 := by omega
      simp only [if_neg h0, if_neg h1, trapezoidMono]
      have hda : (0:ℚ) ≤
          (mn + (mx - mn) / (labels.length : ℚ) * ((i : ℚ) + 1 + ov)) -
          (mn + (mx - mn) / (labels.length : ℚ) * ((i : ℚ) + 0 - ov)) := by
        nlinarith [mul_nonneg hstep.le
          (show (0:ℚ) ≤ 1 + 2 * ov by linarith)]
      refine ⟨?_, ?_, ?_⟩
      · nlinarith [mul_nonneg (show (0:ℚ) ≤ 1 - r by linarith) hda,
          mul_nonneg hr0 hda]
      · nlinarith [mul_nonneg hr0 hda]
      · nlinarith [mul_nonneg (show (0:ℚ) ≤ 1 - r by linarith) hda,
          mul_nonneg hr0 hda]

/-- C2 witness: the amended theorem at the concrete configuration of
the spec's partition example (interior triangular term, first
trapezoid term). -/
theorem mf_parameter_monotonicity_witness :
    triangleMono
      (nthTerm (_create_triangular_mf ["low", "average", "high"] 0 1 0) 1) ∧
    trapezoidMono
      (nthTerm (_create_trapezoid_mf ["low", "average", "high"] 0 1 (1/2) 0)
        0) := by
  have h := mf_parameter_monotonicity ["low", "average", "high"] 0 1 0 (1/2)
    (by simp) (by norm_num) (by norm_num) (by norm_num) (by norm_num)
  exact ⟨h.1 1 (by norm_num), h.2 0 (by norm_num) (Or.inl rfl)⟩

/-- C6: the Gaussian synthesizer reuses the triangular envelope — each
term's mean is the matching triangular term's peak (the universe
minimum for the first label, the universe maximum for the last label
of a multi-label sequence, the midpoint of the two feet for interior
labels; a single label is classified as first) — and sets
`std_dev = (mean - governing foot)/3`, the governing foot being the
right foot for the first and interior labels and the left foot for the
last.  The unnormalized subtraction order makes `std_dev` negative for
the first label (where it equals `-(1+overlap)*step/3`) and for
interior labels, and positive for the last label. -/
theorem gaussian_mean_std_spec (labels : List String) (mn mx ov : ℚ)
    (hmm : mn < mx) (hov : 0 ≤ ov) :
    ∀ i, i < labels.length →
      (gaussianMean (nthTerm (_create_gaussian_mf labels mn mx ov) i) =
        trianglePeak (nthTerm (_create_triangular_mf labels mn mx ov) i)) ∧
      (i = 0 →
        gaussianMean (nthTerm (_create_gaussian_mf labels mn mx ov) i) =
          mn ∧
        gaussianStd (nthTerm (_create_gaussian_mf labels mn mx ov) i) =
          (mn - triangleFootRight
            (nthTerm (_create_triangular_mf labels mn mx ov) i)) / 3 ∧
        gaussianStd (nthTerm (_create_gaussian_mf labels mn mx ov) i) =
          -((1 + ov) * ((mx - mn) / (labels.length : ℚ)) / 3) ∧
        gaussianStd (nthTerm (_create_gaussian_mf labels mn mx ov) i) <
          0) ∧
      (i ≠ 0 → i + 1 < labels.length →
        gaussianMean (nthTerm (_create_gaussian_mf labels mn mx ov) i) =
          (triangleFootLeft
              (nthTerm (_create_triangular_mf labels mn mx ov) i) +
            triangleFootRight
              (nthTerm (_create_triangular_mf labels mn mx ov) i)) / 2 ∧
        gaussianStd (nthTerm (_create_gaussian_mf labels mn mx ov) i) =
          (gaussianMean (nthTerm (_create_gaussian_mf labels mn mx ov) i) -
            triangleFootRight
              (nthTerm (_create_triangular_mf labels mn mx ov) i)) / 3 ∧
        gaussianStd (nthTerm (_create_gaussian_mf labels mn mx ov) i) <
          0) ∧
      (i ≠ 0 → i = labels.length - 1 →
        gaussianMean (nthTerm (_create_gaussian_mf labels mn mx ov) i) =
          mx ∧
        gaussianStd (nthTerm (_create_gaussian_mf labels mn mx ov) i) =
          (mx - triangleFootLeft
            (nthTerm (_create_triangular_mf labels mn mx ov) i)) / 3 ∧
        0 <
          gaussianStd (nthTerm (_create_gaussian_mf labels mn mx ov) i)) := by
  intro i hi
  have hn : 0 < labels.length := by omega
  have hnq : (0:ℚ) < (labels.length : ℚ) := by exact_mod_cast hn
  have hstep : 0 < (mx - mn) / (labels.length : ℚ) :=
    div_pos (by linarith) hnq
  have hsn : (mx - mn) / (labels.length : ℚ) * (labels.length : ℚ) =
      mx - mn := div_mul_cancel₀ _ (ne_of_gt hnq)
  by_cases h0 : i = 0
  · subst h0
    have hg : nthTerm (_create_gaussian_mf labels mn mx ov) 0 =
        Term.gaussian (labels.get ⟨0, hi⟩) mn
          ((mn - (mn + (mx - mn) / (labels.length : ℚ) * (1 + ov))) / 3) := by
      simp only [_create_gaussian_mf]
      rw [nthTerm_enum_map _ labels 0 hi]
      simp
    have ht : nthTerm (_create_triangular_mf labels mn mx ov) 0 =
        Term.triangle (labels.get ⟨0, hi⟩) mn mn
          (mn + (mx - mn) / (labels.length : ℚ) * (1 + ov)) := by
      simp only [_create_triangular_mf]
      rw [nthTerm_enum_map _ labels 0 hi]
      simp
    rw [hg, ht]
    refine ⟨by simp [gaussianMean, trianglePeak], ?_, ?_, ?_⟩
    · intro _
      refine ⟨by simp [gaussianMean],
        by simp [gaussianStd, triangleFootRight],
        ?_, ?_⟩
      · simp only [gaussianStd]
        ring
      · simp only [gaussianStd]
        nlinarith [mul_pos hstep (show (0:ℚ) < 1 + ov by linarith)]
    · intro h0' _
      exact absurd rfl h0'
    · intro h0' _
      exact absurd rfl h0'
  · by_cases h1 : i = labels.length - 1
    · have hg : nthTerm (_create_gaussian_mf labels mn mx ov) i =
          Term.gaussian (labels.get ⟨i, hi⟩) mx
            ((mx - (mn + (mx - mn) / (labels.length : ℚ) *
              ((i : ℚ) - ov))) / 3) := by
        simp only [_create_gaussian_mf]
        rw [nthTerm_enum_map _ labels i hi]
        simp only [if_neg h0, if_pos h1]
      have ht : nthTerm (_create_triangular_mf labels mn mx ov) i =
          Term.triangle (labels.get ⟨i, hi⟩)
            (mn + (mx - mn) / (labels.length : ℚ) * ((i : ℚ) - ov))
            mx mx := by
        simp only [_create_triangular_mf]
        rw [nthTerm_enum_map _ labels i hi]
        simp only [if_neg h0, if_pos h1]
      have hcast : ((i : ℕ) : ℚ) = (labels.length : ℚ) - 1 := by
        rw [h1, Nat.cast_sub hn]
        norm_num
      rw [hg, ht]
      refine ⟨by simp [gaussianMean, trianglePeak], ?_, ?_, ?_⟩
      · intro h
        exact absurd h h0
      · intro _ hlt
        omega
      · intro _ _
        refine ⟨by simp [gaussianMean],
          by simp [gaussianStd, triangleFootLeft], ?_⟩
        simp only [gaussianStd]
        rw [hcast]
        nlinarith [mul_pos hstep (show (0:ℚ) < 1 + ov by linarith)]
    · have hg : nthTerm (_create_gaussian_mf labels mn mx ov) i =
          Term.gaussian (labels.get ⟨i, hi⟩)
            ((1/2 : ℚ) *
              ((mn + (mx - mn) / (labels.length : ℚ) *
                  ((i : ℚ) + 1 + ov)) +
                (mn + (mx - mn) / (labels.length : ℚ) *
                  ((i : ℚ) + 0 - ov))))
            (((1/2 : ℚ) *
                ((mn + (mx - mn) / (labels.length : ℚ) *
                    ((i : ℚ) + 1 + ov)) +
                  (mn + (mx - mn) / (labels.length : ℚ) *
                    ((i : ℚ) + 0 - ov))) -
              (mn + (mx - mn) / (labels.length : ℚ) *
                ((i : ℚ) + 1 + ov))) / 3) := by
        simp only [_create_gaussian_mf]
        rw [nthTerm_enum_map _ labels i hi]
        simp only [if_neg h0, if_neg h1]
      have ht : nthTerm (_create_triangular_mf labels mn mx ov) i =
          Term.triangle (labels.get ⟨i, hi⟩)
            (mn + (mx - mn) / (labels.length : ℚ) * ((i : ℚ) + 0 - ov))
            ((1/2 : ℚ) *
              ((mn + (mx - mn) / (labels.length : ℚ) *
                  ((i : ℚ) + 1 + ov)) +
                (mn + (mx - mn) / (labels.length : ℚ) *
                  ((i : ℚ) + 0 - ov))))
            (mn + (mx - mn) / (labels.length : ℚ) *
              ((i : ℚ) + 1 + ov)) := by
        simp only [_create_triangular_mf]
        rw [nthTerm_enum_map _ labels i hi]
        simp only [if_neg h0, if_neg h1]
      rw [hg, ht]
      refine ⟨by simp [gaussianMean, trianglePeak], ?_, ?_, ?_⟩
      · intro h
        exact absurd h h0
      · intro _ _
        refine ⟨?_, ?_, ?_⟩
        · simp only [gaussianMean, triangleFootLeft, triangleFootRight]
          ring
        · simp [gaussianMean, gaussianStd, triangleFootRight]
        · simp only [gaussianStd]
          nlinarith [mul_pos hstep (show (0:ℚ) < 1 + 2 * ov by linarith)]
      · intro _ heq
        exact absurd heq h1

/-- C6 witness: the theorem at the interior label of
`["low","average","high"]` on `[0,1]` with overlap `0`. -/
theorem gaussian_mean_std_spec_witness :
    gaussianMean
        (nthTerm (_create_gaussian_mf ["low", "average", "high"] 0 1 0) 1) =
      (triangleFootLeft
          (nthTerm (_create_triangular_mf ["low", "average", "high"] 0 1 0)
            1) +
        triangleFootRight
          (nthTerm (_create_triangular_mf ["low", "average", "high"] 0 1 0)
            1)) / 2 ∧
    gaussianStd
        (nthTerm (_create_gaussian_mf ["low", "average", "high"] 0 1 0) 1) <
      0 := by
  have h := gaussian_mean_std_spec ["low", "average", "high"] 0 1 0
    (by norm_num) (le_refl 0) 1 (by norm_num)
  exact ⟨(h.2.2.1 (by norm_num) (by norm_num)).1,
    (h.2.2.1 (by norm_num) (by norm_num)).2.2⟩
